import Mathlib

/-!
# FilmTagger — verification of the natural-language specification

Shallow embedding of the FilmTagger application (Python / PyQt6) and proofs
about it.  The embedded pieces are:

* `src/ui/main_window.py`, `MainWindow._prepare_task_list` — resolution of
  per-image EXIF tag mappings from presets and per-image overrides;
* `src/ui/workers.py`, `ExifWriteWorker.run` — the apply run over a task
  list (backups, progress, cancellation, fail-fast on write errors),
  modelled as the trace of its observable events;
* `src/ui/workers.py`, `ThumbnailWorker.run` — per-image thumbnail
  generation and its emission discipline;
* `src/ui/preset_editor.py`, `PresetManagementWidget._add_preset` /
  `_edit_preset` — preset mutation including its input-error paths;
* `src/preset_manager.py` — preset storage (`get_preset_filepath`,
  `load_presets`, `save_presets`).

Python dicts are embedded as association lists of string pairs with
insertion-order semantics: assigning to an existing key keeps its slot,
assigning to a fresh key appends.  Python truthiness of the string values
involved is `s ≠ ""` (`None` from `dict.get` is modelled by the default
`""`, which is falsy exactly like `None` is here).
-/

set_option autoImplicit false

namespace FilmTagger

/-- A Python `dict` whose keys and values are strings, in insertion order. -/
abbrev Dict := List (String × String)

/-- Python truthiness for the string values this program stores in its
dicts: the empty string (and a missing key, read back as `""`) is falsy. -/
def truthy (s : String) : Bool := s ≠ ""

/-- `d.get(k)` on a string dict, `none` when the key is absent. -/
def dlookup : Dict → String → Option String
  | [], _ => none
  | kv :: rest, key => if kv.1 = key then some kv.2 else dlookup rest key

/-- `d.get(k, "")`: lookup with the falsy default. -/
def dget (d : Dict) (k : String) : String := (dlookup d k).getD ""

/-- `k in d`. -/
def hasKey (d : Dict) (k : String) : Bool := (dlookup d k).isSome

/-- `d[k] = v` with CPython dict semantics: an existing key keeps its
insertion slot and gets the new value, a fresh key is appended. -/
def dinsert (d : Dict) (k v : String) : Dict :=
  if hasKey d k then d.map (fun kv => if kv.1 = k then (k, v) else kv)
  else d ++ [(k, v)]

/-- `d.update(e)`: assign every pair of `e` into `d`, in `e`'s order. -/
def dupdate (d e : Dict) : Dict :=
  e.foldl (fun acc kv => dinsert acc kv.1 kv.2) d

/-- `del d[k]` (callers of this model only delete keys that are present;
on CPython a missing key would raise `KeyError`). -/
def ddelete (d : Dict) (k : String) : Dict := d.filter (fun kv => kv.1 ≠ k)

/-- A preset category: preset name ↦ dict of EXIF fields
(`all_presets['cameras']` and friends). -/
abbrev PDict := List (String × Dict)

/-- Preset lookup by name. -/
def plookup : PDict → String → Option Dict
  | [], _ => none
  | kv :: rest, key => if kv.1 = key then some kv.2 else plookup rest key

/-- `name in presets`. -/
def pHasKey (ps : PDict) (k : String) : Bool := (plookup ps k).isSome

/-- `presets[name] = fields`, CPython slot semantics as in `dinsert`. -/
def pInsert (ps : PDict) (k : String) (v : Dict) : PDict :=
  if pHasKey ps k then ps.map (fun kv => if kv.1 = k then (k, v) else kv)
  else ps ++ [(k, v)]

/-- `del presets[name]`. -/
def pDelete (ps : PDict) (k : String) : PDict := ps.filter (fun kv => kv.1 ≠ k)

/-- The three preset categories loaded once at the top of
`_prepare_task_list` (`all_presets` in the source). -/
structure AllPresets where
  cameras : PDict
  lenses : PDict
  film_stocks : PDict

/-- One preset layer of `_prepare_task_list`:
`if name and name in category: final_exif.update(category[name])`. -/
def presetLayer (category : PDict) (name : String) (e : Dict) : Dict :=
  if truthy name then
    match plookup category name with
    | some fields => dupdate e fields
    | none => e
  else e

/-- One override line of `_prepare_task_list`:
`if data.get(field): final_exif[tag] = data[field]`. -/
def overrideField (e : Dict) (tag value : String) : Dict :=
  if truthy value then dinsert e tag value else e

/-- The per-image body of `MainWindow._prepare_task_list`
(src/ui/main_window.py lines 109–133): start from `final_exif = {}`, layer
the camera, film-stock and lens presets, apply the three per-image
overrides, then drop every pair with a falsy value
(`final_exif_cleaned`). -/
def buildFinalExif (ps : AllPresets) (data : Dict) : Dict :=
  let e : Dict := []
  let e := presetLayer ps.cameras (dget data "Camera") e
  let e := presetLayer ps.film_stocks (dget data "FilmStock") e
  let e := presetLayer ps.lenses (dget data "Lens") e
  let e := overrideField e "FNumber" (dget data "Aperture")
  let e := overrideField e "ShutterSpeedValue" (dget data "ShutterSpeed")
  let e := overrideField e "ImageDescription" (dget data "RollNotes")
  e.filter (fun kv => truthy kv.2)

/-- `MainWindow._prepare_task_list`, value level: one task per entry of
`self.image_data` (a dict `path ↦ record`, iterated in insertion order,
embedded as a list). -/
def prepare_task_list (image_data : List (String × Dict)) (ps : AllPresets) :
    List (String × Dict) :=
  image_data.map (fun pd => (pd.1, buildFinalExif ps pd.2))

/-! ## `ExifWriteWorker.run` (src/ui/workers.py lines 81–118)

The apply run is embedded as the trace of its observable events.  Qt signal
emissions (`progress`, `finished`), backup copies (`shutil.copy2`) and
metadata-write attempts (`exiftool_manager.write_metadata`) are the events.
The write capability lives in `exiftool_manager`, outside `src/`; the run
treats it as a black box returning a boolean, so it is modelled as an
oracle `writeOk : Nat → Bool` giving the outcome of the attempt on the
i-th task.  The `is_running` flag is flipped from another thread; its value
observed at the check before the i-th task is the oracle
`cancelAt : Nat → Bool`.  The progress value `int((idx+1)/total_files*100)`
is computed by CPython through IEEE-754 binary64 floats (`(idx+1)/total`
is a correctly rounded double, as is its product with the exact double
`100.0`, and `int` truncates toward zero); `pct` below implements exactly
that — e.g. `pct 29 100 = 28`, not `29`, matching
`int(29/100*100) == 28`. -/

/-- An observable event of `ExifWriteWorker.run`. -/
inductive Ev where
  /-- `self.progress.emit(percent, message)`. -/
  | progress (percent : Nat) (msg : String)
  /-- `shutil.copy2(image_path, backup_path)`: the file is copied into the
  backup directory. -/
  | copy (path : String)
  /-- An `exiftool_manager.write_metadata(image_path, ...)` attempt and its
  boolean outcome. -/
  | write (path : String) (ok : Bool)
  /-- `self.finished.emit(success, message)`. -/
  | finished (ok : Bool) (msg : String)
  deriving Repr, DecidableEq

/-- `os.path.basename` for forward-slash paths. -/
def basename (p : String) : String := ((p.splitOn "/").getLast?).getD p

/-- `⌊log2 n⌋` by structural recursion on a fuel bound (so that it reduces
inside the kernel). -/
def log2fuel : Nat → Nat → Nat
  | 0, _ => 0
  | fuel + 1, n => if n ≤ 1 then 0 else log2fuel fuel (n / 2) + 1

/-- `⌊log2 n⌋` (`0` at `0`). -/
def log2nat (n : Nat) : Nat := log2fuel n n

/-- `⌊log2 (a/b)⌋` for positive naturals, i.e. the binary64 exponent of
the quotient. -/
def floorLog2Q (a b : Nat) : Int :=
  if b ≤ a then Int.ofNat (log2nat (a / b))
  else
    let c := (b + a - 1) / a
    if c ≤ 1 then 0 else -(Int.ofNat (log2nat (c - 1) + 1))

/-- Nearest integer to `num/den`, ties to even (the IEEE-754 default
rounding applied to a scaled significand). -/
def roundHalfEven (num den : Nat) : Nat :=
  let q := num / den
  let r := num % den
  if 2 * r < den then q
  else if den < 2 * r then q + 1
  else if q % 2 = 0 then q else q + 1

/-- Renormalize a just-rounded 53-bit significand that may have carried
up to `2^53`.  A pair `(m, e)` stands for the positive double
`m * 2^(e-52)` with `2^52 ≤ m < 2^53`. -/
def normEM (m : Nat) (e : Int) : Nat × Int :=
  if m = 2 ^ 53 then (2 ^ 52, e + 1) else (m, e)

/-- The correctly rounded binary64 of `k / n` (CPython's int-by-int true
division), for `k, n ≥ 1`, as a normalized `(significand, exponent)`
pair.  Subnormals and overflow are outside the exponent ranges reachable
here and are not modelled. -/
def divF (k n : Nat) : Nat × Int :=
  let e := floorLog2Q k n
  let m := if e ≤ 52 then roundHalfEven (k * 2 ^ (52 - e).toNat) n
           else roundHalfEven k (n * 2 ^ (e - 52).toNat)
  normEM m e

/-- The correctly rounded binary64 product of the double `m * 2^(e-52)`
with the exact double `100.0`. -/
def mulF100 (m : Nat) (e : Int) : Nat × Int :=
  let p := m * 100
  let L := log2nat p
  if 52 ≤ L then normEM (roundHalfEven p (2 ^ (L - 52))) (e + Int.ofNat (L - 52))
  else (p * 2 ^ (52 - L), e - Int.ofNat (52 - L))

/-- `int()` of the nonnegative double `m * 2^(e-52)`: truncation toward
zero. -/
def truncF (m : Nat) (e : Int) : Nat :=
  if 52 ≤ e then m * 2 ^ (e - 52).toNat
  else m / 2 ^ (52 - e).toNat

/-- `int((idx+1)/total_files * 100)` for `k = idx+1`, `n = total_files`,
with CPython's binary64 float semantics: divide as a correctly rounded
double, multiply by `100.0` as a correctly rounded double, truncate.
The guard cases are unreachable in the run (`k ≥ 1` inside the loop,
`n ≥ 1` whenever the loop body executes). -/
def pct (k n : Nat) : Nat :=
  if k = 0 ∨ n = 0 then 0
  else
    let d1 := divF k n
    let d2 := mulF100 d1.1 d1.2
    truncF d2.1 d2.2

/-- The error message built in the `except` clause of the run:
`Error: {e}. Originals are safe in backup folder: {backup_path}` when
backups are enabled, plain `Error: {e}` otherwise. -/
def errMsg (backup : Bool) (bp msg : String) : String :=
  if backup then "Error: " ++ msg ++ ". Originals are safe in backup folder: " ++ bp
  else "Error: " ++ msg

/-- The status message emitted for one file: `Processing {filename}...`. -/
def processingMsg (path : String) : String :=
  "Processing " ++ basename path ++ "..."

/-- The per-file loop of `ExifWriteWorker.run`, from task index `idx`
onward.  Each iteration: check the cancellation flag (raising
`InterruptedError` if set, caught by the handler that emits the failure),
emit progress, copy the original into the backup folder when backups are
enabled, then attempt the metadata write, raising `IOError` on failure
(also caught by the handler).  Falling off the loop emits
`finished(True, backup_path)`. -/
def runFrom (backup : Bool) (bp : String) (writeOk cancelAt : Nat → Bool)
    (total : Nat) : List (String × Dict) → Nat → List Ev
  | [], _ => [Ev.finished true bp]
  | (path, _) :: rest, idx =>
    if cancelAt idx then
      [Ev.finished false (errMsg backup bp "Process cancelled by user.")]
    else
      Ev.progress (pct (idx + 1) total) (processingMsg path)
        :: ((if backup then [Ev.copy path] else [])
          ++ if writeOk idx then
               Ev.write path true :: runFrom backup bp writeOk cancelAt total rest (idx + 1)
             else
               [Ev.write path false,
                Ev.finished false
                  (errMsg backup bp ("Failed to write metadata for " ++ basename path ++ "."))])

/-- `ExifWriteWorker.run`: `backup_path` stays `""` when backups are
disabled (it is only assigned inside `if self.backup_enabled`). -/
def exifRun (tasks : List (String × Dict)) (backup : Bool) (bp : String)
    (writeOk cancelAt : Nat → Bool) : List Ev :=
  runFrom backup (if backup then bp else "") writeOk cancelAt tasks.length tasks 0

/-- Number of files copied into the backup directory in a trace. -/
def countCopied (tr : List Ev) : Nat :=
  tr.countP (fun e => match e with | Ev.copy _ => true | _ => false)

/-- Number of files successfully written in a trace. -/
def countWritten (tr : List Ev) : Nat :=
  tr.countP (fun e => match e with | Ev.write _ true => true | _ => false)

/-- Number of write attempts (successful or not) in a trace. -/
def countAttempts (tr : List Ev) : Nat :=
  tr.countP (fun e => match e with | Ev.write _ _ => true | _ => false)

/-- Number of progress emissions in a trace. -/
def countProgress (tr : List Ev) : Nat :=
  tr.countP (fun e => match e with | Ev.progress _ _ => true | _ => false)

/-- The event block the run produces for a successfully processed task:
progress, then the backup copy when enabled, then the successful write. -/
def okBlock (backup : Bool) (total : Nat) (idx : Nat) (path : String) : List Ev :=
  Ev.progress (pct (idx + 1) total) (processingMsg path)
    :: (if backup then [Ev.copy path] else []) ++ [Ev.write path true]

/-- The trace of a run prefix in which every write succeeds and no
cancellation is observed: one `okBlock` per task, in order. -/
def okBlocks (backup : Bool) (total : Nat) : List (String × Dict) → Nat → List Ev
  | [], _ => []
  | (path, _) :: rest, idx =>
    okBlock backup total idx path ++ okBlocks backup total rest (idx + 1)

/-! ## `ThumbnailWorker.run` (src/ui/workers.py lines 19–53) -/

/-- Abstract pixel data of a decoded, scaled thumbnail (`QIcon` contents
are opaque to the program logic). -/
abbrev Icon := Nat

/-- Outcome of the `QImageReader` decode of one image. -/
inductive DecodeOutcome where
  /-- `reader.read()` produced a non-null image; the scaled icon made from
  it. -/
  | ok (icon : Icon)
  /-- `image.isNull()` was true. -/
  | nullImage
  /-- An exception escaped the decode (caught by the `except` clause). -/
  | exn
  deriving Repr, DecidableEq

/-- `ThumbnailWorker.run`: the list of `finished(path, icon)` emissions of
one worker unit, `none` standing for the empty `QIcon()`.  `isRunning` is
the value of the stop flag at the check at the top of `run`. -/
def thumbRun (isRunning : Bool) (decode : DecodeOutcome) (path : String) :
    List (String × Option Icon) :=
  if isRunning then
    match decode with
    | DecodeOutcome.ok icon => [(path, some icon)]
    | DecodeOutcome.nullImage => [(path, none)]
    | DecodeOutcome.exn => [(path, none)]
  else []

/-! ## Preset storage, `src/preset_manager.py`

The filesystem is an oracle `fs : String → Option LoadedJson` from a path
to what opening and JSON-parsing that file would yield (`none` = the file
does not exist).  The absolute prefix of `PRESETS_DIR` (derived from
`__file__`) is abstracted to the relative `resources/presets`.  Python
exceptions raised out of a function are `Except.error`. -/

/-- What `json.load` on an existing file gives back, as far as
`load_presets` inspects it. -/
inductive LoadedJson where
  /-- A JSON object whose entries are preset dicts. -/
  | dict (d : PDict)
  /-- Valid JSON that is not an object (`isinstance(data, dict)` fails). -/
  | nonDict
  /-- `json.JSONDecodeError` or `IOError` while reading. -/
  | unreadable
  deriving Repr, DecidableEq

/-- `PRESET_TYPES`. -/
def PRESET_TYPES : List String := ["cameras", "lenses", "film_stocks"]

/-- `PRESETS_DIR` (absolute prefix abstracted). -/
def PRESETS_DIR : String := "resources/presets"

/-- `get_preset_filepath`: raises `ValueError` on a type outside
`PRESET_TYPES`, else returns `PRESETS_DIR/{preset_type}.json`. -/
def get_preset_filepath (preset_type : String) : Except String String :=
  if preset_type ∈ PRESET_TYPES then
    Except.ok (PRESETS_DIR ++ "/" ++ preset_type ++ ".json")
  else Except.error ("Invalid preset type: " ++ preset_type)

/-- `load_presets`: propagate `ValueError` from `get_preset_filepath`;
a missing file, unreadable file, or non-dict JSON all load as `{}`. -/
def load_presets (fs : String → Option LoadedJson) (preset_type : String) :
    Except String PDict := do
  let filepath ← get_preset_filepath preset_type
  match fs filepath with
  | none => pure []
  | some (LoadedJson.dict d) => pure d
  | some LoadedJson.nonDict => pure []
  | some LoadedJson.unreadable => pure []

/-- `save_presets`: propagate `ValueError` from `get_preset_filepath`,
then return whether the dump succeeded (`writeOk` is the oracle for the
`IOError` branch, which returns `False`). -/
def save_presets (writeOk : Bool) (preset_type : String) :
    Except String Bool := do
  let _ ← get_preset_filepath preset_type
  pure writeOk

/-! ## Preset mutation, `src/ui/preset_editor.py` lines 78–112

`PresetManagementWidget._add_preset` and `_edit_preset`, value level.  The
modal dialog's result is `none` when the dialog was cancelled
(`dialog.exec()` falsy) and `some (name, data)` when accepted, `name` and
`data` already `.strip()`ed by `PresetDataDialog.get_data`.  A
`QMessageBox.warning` is recorded in `warning`; whether
`preset_manager.save_presets` was called is recorded in `saved`. -/

/-- Result of one preset mutation attempt on the widget state. -/
structure MutOutcome where
  /-- `self.presets` after the operation. -/
  presets : PDict
  /-- The synchronous Input Error message box shown, if any. -/
  warning : Option String
  /-- Whether the operation reached `preset_manager.save_presets`. -/
  saved : Bool
  deriving Repr, DecidableEq

/-- `_add_preset`. -/
def addPreset (presets : PDict) (dialog : Option (String × Dict)) : MutOutcome :=
  match dialog with
  | none => ⟨presets, none, false⟩
  | some (name, data) =>
    if name = "" then ⟨presets, some "Preset name cannot be empty.", false⟩
    else if pHasKey presets name then
      ⟨presets, some "A preset with this name already exists.", false⟩
    else ⟨pInsert presets name data, none, true⟩

/-- `_edit_preset`, past the selection check (`originalName` is the text of
the selected list item, hence a key of `presets`): an empty new name warns
and aborts, otherwise `del self.presets[original_name]` then
`self.presets[new_name] = new_data` and save — with no duplicate check. -/
def editPreset (presets : PDict) (originalName : String)
    (dialog : Option (String × Dict)) : MutOutcome :=
  match dialog with
  | none => ⟨presets, none, false⟩
  | some (newName, newData) =>
    if newName = "" then ⟨presets, some "Preset name cannot be empty.", false⟩
    else ⟨pInsert (pDelete presets originalName) newName newData, none, true⟩

/-! ## Heap-level `_prepare_task_list`

For the frame/aliasing claims the function is re-embedded at the level of
Python object identity: a heap of dict objects addressed by allocation
index.  The image records (`self.image_data`'s values) live at given
addresses; each loop iteration allocates `final_exif = {}` fresh, mutates
it in place through the layer and override statements, allocates the fresh
comprehension `final_exif_cleaned`, and appends `(path, address-of-cleaned)`
to the task list. -/

/-- A heap of dict objects; the address of a cell is its index. -/
structure Heap where
  cells : List Dict
  deriving Repr, DecidableEq

/-- Allocate a new dict object, returning the heap and its address. -/
def halloc (h : Heap) (d : Dict) : Heap × Nat :=
  (⟨h.cells ++ [d]⟩, h.cells.length)

/-- Read the dict at an address. -/
def hread (h : Heap) (a : Nat) : Dict := h.cells.getD a []

/-- Overwrite the dict at an address in place. -/
def hwrite (h : Heap) (a : Nat) (d : Dict) : Heap := ⟨h.cells.set a d⟩

/-- A preset layer as an in-place mutation of the dict at `fea`
(`final_exif.update(...)`). -/
def presetLayerH (category : PDict) (name : String) (h : Heap) (fea : Nat) : Heap :=
  if truthy name then
    match plookup category name with
    | some fields => hwrite h fea (dupdate (hread h fea) fields)
    | none => h
  else h

/-- An override line as an in-place mutation of the dict at `fea`
(`final_exif[tag] = value`). -/
def overrideFieldH (h : Heap) (fea : Nat) (tag value : String) : Heap :=
  if truthy value then hwrite h fea (dinsert (hread h fea) tag value) else h

/-- One iteration of the `_prepare_task_list` loop on the heap: read the
record at `addr`, allocate `final_exif = {}`, run the three preset layers
and three overrides on it in place, allocate `final_exif_cleaned`, and
return the new heap with the cleaned dict's address. -/
def prepStepH (ps : AllPresets) (h : Heap) (addr : Nat) : Heap × Nat :=
  let data := hread h addr
  let af := halloc h []
  let h1 := af.1
  let fea := af.2
  let h2 := presetLayerH ps.cameras (dget data "Camera") h1 fea
  let h3 := presetLayerH ps.film_stocks (dget data "FilmStock") h2 fea
  let h4 := presetLayerH ps.lenses (dget data "Lens") h3 fea
  let h5 := overrideFieldH h4 fea "FNumber" (dget data "Aperture")
  let h6 := overrideFieldH h5 fea "ShutterSpeedValue" (dget data "ShutterSpeed")
  let h7 := overrideFieldH h6 fea "ImageDescription" (dget data "RollNotes")
  let cleaned := (hread h7 fea).filter (fun kv => truthy kv.2)
  halloc h7 cleaned

/-- `_prepare_task_list` on the heap: `entries` is `self.image_data` as
`(path, record address)` pairs in insertion order; returns the final heap
and the task list of `(path, tag-dict address)` pairs. -/
def prepareTaskListHeap (ps : AllPresets) :
    List (String × Nat) → Heap → Heap × List (String × Nat)
  | [], h => (h, [])
  | (path, addr) :: rest, h =>
    let s := prepStepH ps h addr
    let r := prepareTaskListHeap ps rest s.1
    (r.1, (path, s.2) :: r.2)

/-- The value-level reading of a heap task list: each task's tag dict. -/
def taskValues (h : Heap) (tasks : List (String × Nat)) : List (String × Dict) :=
  tasks.map (fun t => (t.1, hread h t.2))

/-! ## Heap lemmas -/

theorem cells_halloc_length (h : Heap) (d : Dict) :
    (halloc h d).1.cells.length = h.cells.length + 1 := by
  simp [halloc]

theorem cells_hwrite_length (h : Heap) (a : Nat) (d : Dict) :
    (hwrite h a d).cells.length = h.cells.length := by
  simp [hwrite]

theorem halloc_snd (h : Heap) (d : Dict) : (halloc h d).2 = h.cells.length := rfl

theorem hread_halloc_self (h : Heap) (d : Dict) :
    hread (halloc h d).1 h.cells.length = d := by
  simp [hread, halloc, List.getD_eq_getElem?_getD, List.getElem?_concat_length]

theorem hread_halloc_prev (h : Heap) (d : Dict) {a : Nat}
    (ha : a < h.cells.length) : hread (halloc h d).1 a = hread h a := by
  simp [hread, halloc, List.getD_eq_getElem?_getD, List.getElem?_append, ha]

theorem hread_hwrite_other (h : Heap) {a b : Nat} (d : Dict) (hne : a ≠ b) :
    hread (hwrite h a d) b = hread h b := by
  simp [hread, hwrite, List.getD_eq_getElem?_getD, List.getElem?_set_ne hne]

theorem hread_hwrite_same (h : Heap) {a : Nat} (d : Dict)
    (ha : a < h.cells.length) : hread (hwrite h a d) a = d := by
  simp [hread, hwrite, List.getD_eq_getElem?_getD, List.getElem?_set_self ha]

theorem presetLayerH_cells_length (category : PDict) (name : String)
    (h : Heap) (fea : Nat) :
    (presetLayerH category name h fea).cells.length = h.cells.length := by
  unfold presetLayerH
  by_cases ht : truthy name
  · cases plookup category name <;> simp [ht, cells_hwrite_length]
  · simp [ht]

theorem presetLayerH_hread_other (category : PDict) (name : String)
    (h : Heap) {fea a : Nat} (hne : fea ≠ a) :
    hread (presetLayerH category name h fea) a = hread h a := by
  unfold presetLayerH
  by_cases ht : truthy name
  · cases plookup category name <;> simp [ht, hread_hwrite_other h _ hne]
  · simp [ht]

theorem presetLayerH_hread_same (category : PDict) (name : String)
    (h : Heap) {fea : Nat} (hfea : fea < h.cells.length) :
    hread (presetLayerH category name h fea) fea
      = presetLayer category name (hread h fea) := by
  unfold presetLayerH presetLayer
  by_cases ht : truthy name
  · cases plookup category name <;> simp [ht, hread_hwrite_same h _ hfea]
  · simp [ht]

theorem overrideFieldH_cells_length (h : Heap) (fea : Nat) (tag value : String) :
    (overrideFieldH h fea tag value).cells.length = h.cells.length := by
  unfold overrideFieldH
  by_cases ht : truthy value <;> simp [ht, cells_hwrite_length]

theorem overrideFieldH_hread_other (h : Heap) {fea a : Nat}
    (tag value : String) (hne : fea ≠ a) :
    hread (overrideFieldH h fea tag value) a = hread h a := by
  unfold overrideFieldH
  by_cases ht : truthy value <;> simp [ht, hread_hwrite_other h _ hne]

theorem overrideFieldH_hread_same (h : Heap) {fea : Nat} (tag value : String)
    (hfea : fea < h.cells.length) :
    hread (overrideFieldH h fea tag value) fea
      = overrideField (hread h fea) tag value := by
  unfold overrideFieldH overrideField
  by_cases ht : truthy value <;> simp [ht, hread_hwrite_same h _ hfea]

/-- One loop iteration on the heap: the heap grows by the two fresh dicts,
the returned address is the second of them, every pre-existing cell is
untouched, and the cleaned dict read back at the returned address is
exactly the value-level `buildFinalExif` of the record. -/
theorem prepStepH_spec (ps : AllPresets) (h : Heap) (addr : Nat) :
    (prepStepH ps h addr).1.cells.length = h.cells.length + 2 ∧
    (prepStepH ps h addr).2 = h.cells.length + 1 ∧
    (∀ a, a < h.cells.length → hread (prepStepH ps h addr).1 a = hread h a) ∧
    hread (prepStepH ps h addr).1 (prepStepH ps h addr).2
      = buildFinalExif ps (hread h addr) := by
  simp only [prepStepH, halloc_snd]
  set data := hread h addr with hdata
  set fea := h.cells.length with hfea
  set h1 := (halloc h []).1 with hh1
  set h2 := presetLayerH ps.cameras (dget data "Camera") h1 fea with hh2
  set h3 := presetLayerH ps.film_stocks (dget data "FilmStock") h2 fea with hh3
  set h4 := presetLayerH ps.lenses (dget data "Lens") h3 fea with hh4
  set h5 := overrideFieldH h4 fea "FNumber" (dget data "Aperture") with hh5
  set h6 := overrideFieldH h5 fea "ShutterSpeedValue" (dget data "ShutterSpeed") with hh6
  set h7 := overrideFieldH h6 fea "ImageDescription" (dget data "RollNotes") with hh7
  have hlen1 : h1.cells.length = fea + 1 := cells_halloc_length h []
  have hlen7 : h7.cells.length = fea + 1 := by
    rw [hh7, hh6, hh5, hh4, hh3, hh2]
    rw [overrideFieldH_cells_length, overrideFieldH_cells_length,
      overrideFieldH_cells_length, presetLayerH_cells_length,
      presetLayerH_cells_length, presetLayerH_cells_length, hlen1]
  have hfea_lt1 : fea < h1.cells.length := by omega
  have hfea_lt2 : fea < h2.cells.length := by
    rw [hh2, presetLayerH_cells_length]; exact hfea_lt1
  have hfea_lt3 : fea < h3.cells.length := by
    rw [hh3, presetLayerH_cells_length]; exact hfea_lt2
  have hfea_lt4 : fea < h4.cells.length := by
    rw [hh4, presetLayerH_cells_length]; exact hfea_lt3
  have hfea_lt5 : fea < h5.cells.length := by
    rw [hh5, overrideFieldH_cells_length]; exact hfea_lt4
  have hfea_lt6 : fea < h6.cells.length := by
    rw [hh6, overrideFieldH_cells_length]; exact hfea_lt5
  have hval : hread h7 fea
      = overrideField (overrideField (overrideField
          (presetLayer ps.lenses (dget data "Lens")
            (presetLayer ps.film_stocks (dget data "FilmStock")
              (presetLayer ps.cameras (dget data "Camera") [])))
          "FNumber" (dget data "Aperture"))
          "ShutterSpeedValue" (dget data "ShutterSpeed"))
          "ImageDescription" (dget data "RollNotes") := by
    rw [hh7, overrideFieldH_hread_same h6 _ _ hfea_lt6,
      hh6, overrideFieldH_hread_same h5 _ _ hfea_lt5,
      hh5, overrideFieldH_hread_same h4 _ _ hfea_lt4,
      hh4, presetLayerH_hread_same _ _ h3 hfea_lt3,
      hh3, presetLayerH_hread_same _ _ h2 hfea_lt2,
      hh2, presetLayerH_hread_same _ _ h1 hfea_lt1,
      hh1, hfea]
    rw [hread_halloc_self h []]
  have hprev7 : ∀ a, a < fea → hread h7 a = hread h a := by
    intro a ha
    have hne : fea ≠ a := by omega
    rw [hh7, overrideFieldH_hread_other _ _ _ hne,
      hh6, overrideFieldH_hread_other _ _ _ hne,
      hh5, overrideFieldH_hread_other _ _ _ hne,
      hh4, presetLayerH_hread_other _ _ _ hne,
      hh3, presetLayerH_hread_other _ _ _ hne,
      hh2, presetLayerH_hread_other _ _ _ hne,
      hh1, hread_halloc_prev h [] ha]
  refine ⟨?_, ?_, ?_, ?_⟩
  · rw [cells_halloc_length]; omega
  · omega
  · intro a ha
    have ha7 : a < h7.cells.length := by omega
    calc hread (halloc h7 _).1 a = hread h7 a := hread_halloc_prev h7 _ ha7
      _ = hread h a := hprev7 a ha
  · rw [hread_halloc_self h7 _, hval]
    simp only [buildFinalExif, hdata]

/-- The heap-level `_prepare_task_list` loop: the heap only grows, every
cell that existed before the call (in particular every image record) is
untouched, every task's tag dict is a freshly allocated object, and the
value-level reading of the result is exactly the pure
`prepare_task_list` of the records read from the initial heap. -/
theorem prepareTaskListHeap_spec (ps : AllPresets) :
    ∀ (entries : List (String × Nat)) (h : Heap),
    (∀ e ∈ entries, e.2 < h.cells.length) →
    h.cells.length ≤ (prepareTaskListHeap ps entries h).1.cells.length ∧
    (∀ a, a < h.cells.length →
      hread (prepareTaskListHeap ps entries h).1 a = hread h a) ∧
    (∀ t ∈ (prepareTaskListHeap ps entries h).2, h.cells.length ≤ t.2) ∧
    taskValues (prepareTaskListHeap ps entries h).1
        (prepareTaskListHeap ps entries h).2
      = prepare_task_list (entries.map (fun e => (e.1, hread h e.2))) ps := by
  intro entries
  induction entries with
  | nil =>
    intro h _
    exact ⟨Nat.le_refl _, fun a _ => rfl, fun t ht => absurd ht (List.not_mem_nil t),
      rfl⟩
  | cons pe rest ih =>
    intro h hvalid
    obtain ⟨path, addr⟩ := pe
    have haddr : addr < h.cells.length := hvalid (path, addr) (List.mem_cons_self _ _)
    obtain ⟨hslen, hsaddr, hsprev, hsval⟩ := prepStepH_spec ps h addr
    set s := prepStepH ps h addr with hs
    have hvalid' : ∀ e ∈ rest, e.2 < s.1.cells.length := by
      intro e he
      have := hvalid e (List.mem_cons_of_mem _ he)
      omega
    obtain ⟨hrlen, hrprev, hrfresh, hrval⟩ := ih s.1 hvalid'
    set r := prepareTaskListHeap ps rest s.1 with hr
    have hstep : prepareTaskListHeap ps ((path, addr) :: rest) h
        = (r.1, (path, s.2) :: r.2) := by
      simp only [prepareTaskListHeap, ← hs, ← hr]
    rw [hstep]
    refine ⟨?_, ?_, ?_, ?_⟩
    · show h.cells.length ≤ r.1.cells.length
      omega
    · intro a ha
      have ha' : a < s.1.cells.length := by omega
      rw [hrprev a ha', hsprev a ha]
    · intro t ht
      rcases List.mem_cons.mp ht with h1 | h2
      · rw [h1]; simp only [hsaddr]; omega
      · have := hrfresh t h2
        omega
    · have hhead : hread r.1 s.2 = buildFinalExif ps (hread h addr) := by
        have hlt : s.2 < s.1.cells.length := by omega
        rw [hrprev s.2 hlt, hsval]
      have hmaps : rest.map (fun e => (e.1, hread s.1 e.2))
          = rest.map (fun e => (e.1, hread h e.2)) := by
        apply List.map_congr_left
        intro e he
        have : e.2 < h.cells.length := hvalid e (List.mem_cons_of_mem _ he)
        rw [hsprev e.2 this]
      simp only [taskValues, List.map_cons, hhead, prepare_task_list]
      refine congrArg _ ?_
      have hv := hrval
      simp only [taskValues, prepare_task_list] at hv
      rw [hv, hmaps]

/-! ## Trace lemmas for `ExifWriteWorker.run` -/

/-- While every write succeeds and no cancellation is observed, the loop
produces one `okBlock` per task and continues on the remaining tasks. -/
theorem runFrom_append_ok (backup : Bool) (bp : String)
    (writeOk cancelAt : Nat → Bool) (total : Nat) :
    ∀ (pre rest : List (String × Dict)) (idx : Nat),
    (∀ j, idx ≤ j → j < idx + pre.length → writeOk j = true) →
    (∀ j, idx ≤ j → j < idx + pre.length → cancelAt j = false) →
    runFrom backup bp writeOk cancelAt total (pre ++ rest) idx
      = okBlocks backup total pre idx
        ++ runFrom backup bp writeOk cancelAt total rest (idx + pre.length) := by
  intro pre
  induction pre with
  | nil => intro rest idx _ _; simp [okBlocks]
  | cons pd pre' ih =>
    intro rest idx hw hc
    obtain ⟨path, md⟩ := pd
    have hc0 : cancelAt idx = false :=
      hc idx (Nat.le_refl idx) (by simp only [List.length_cons]; omega)
    have hw0 : writeOk idx = true :=
      hw idx (Nat.le_refl idx) (by simp only [List.length_cons]; omega)
    have hrec := ih rest (idx + 1)
      (fun j h1 h2 => hw j (by omega) (by simp only [List.length_cons]; omega))
      (fun j h1 h2 => hc j (by omega) (by simp only [List.length_cons]; omega))
    have hidx : idx + ((path, md) :: pre').length = idx + 1 + pre'.length := by
      simp only [List.length_cons]; omega
    rw [hidx]
    simp only [List.cons_append, runFrom, hc0, hw0, Bool.false_eq_true,
      if_false, if_true, hrec, okBlocks, okBlock]
    simp [List.append_assoc]
    exact hrec

theorem countCopied_append (tr tr' : List Ev) :
    countCopied (tr ++ tr') = countCopied tr + countCopied tr' :=
  List.countP_append _ tr tr'

theorem countWritten_append (tr tr' : List Ev) :
    countWritten (tr ++ tr') = countWritten tr + countWritten tr' :=
  List.countP_append _ tr tr'

theorem countAttempts_append (tr tr' : List Ev) :
    countAttempts (tr ++ tr') = countAttempts tr + countAttempts tr' :=
  List.countP_append _ tr tr'

theorem countCopied_okBlocks (backup : Bool) (total : Nat) :
    ∀ (pre : List (String × Dict)) (idx : Nat),
    countCopied (okBlocks backup total pre idx)
      = if backup then pre.length else 0 := by
  intro pre
  induction pre with
  | nil => intro idx; cases backup <;> simp [okBlocks, countCopied]
  | cons pd pre' ih =>
    intro idx
    obtain ⟨path, md⟩ := pd
    simp only [okBlocks, countCopied_append, ih (idx + 1)]
    cases backup
    · simp [okBlock, countCopied, List.countP_cons, List.countP_append]
    · simp [okBlock, countCopied, List.countP_cons, List.countP_append]
      omega

theorem countWritten_okBlocks (backup : Bool) (total : Nat) :
    ∀ (pre : List (String × Dict)) (idx : Nat),
    countWritten (okBlocks backup total pre idx) = pre.length := by
  intro pre
  induction pre with
  | nil => intro idx; simp [okBlocks, countWritten]
  | cons pd pre' ih =>
    intro idx
    obtain ⟨path, md⟩ := pd
    simp only [okBlocks, countWritten_append, ih (idx + 1)]
    cases backup <;>
      simp [okBlock, countWritten, List.countP_cons, List.countP_append] <;> omega

theorem countAttempts_okBlocks (backup : Bool) (total : Nat) :
    ∀ (pre : List (String × Dict)) (idx : Nat),
    countAttempts (okBlocks backup total pre idx) = pre.length := by
  intro pre
  induction pre with
  | nil => intro idx; simp [okBlocks, countAttempts]
  | cons pd pre' ih =>
    intro idx
    obtain ⟨path, md⟩ := pd
    simp only [okBlocks, countAttempts_append, ih (idx + 1)]
    cases backup <;>
      simp [okBlock, countAttempts, List.countP_cons, List.countP_append] <;> omega

theorem countProgress_append (tr tr' : List Ev) :
    countProgress (tr ++ tr') = countProgress tr + countProgress tr' :=
  List.countP_append _ tr tr'

theorem countProgress_okBlocks (backup : Bool) (total : Nat) :
    ∀ (pre : List (String × Dict)) (idx : Nat),
    countProgress (okBlocks backup total pre idx) = pre.length := by
  intro pre
  induction pre with
  | nil => intro idx; simp [okBlocks, countProgress]
  | cons pd pre' ih =>
    intro idx
    obtain ⟨path, md⟩ := pd
    simp only [okBlocks, countProgress_append, ih (idx + 1)]
    cases backup <;>
      simp [okBlock, countProgress, List.countP_cons, List.countP_append] <;> omega

/-- The progress-value model reproduces CPython's floats, including the
inputs where they diverge from exact division: `int(29/100*100) == 28`,
`int(57/100*100) == 56`, `int(58/100*100) == 57`,
`int(290/1000*100) == 28`, while exact cases keep the exact quotient. -/
theorem pct_matches_cpython :
    pct 1 1 = 100 ∧ pct 1 3 = 33 ∧ pct 2 3 = 66 ∧ pct 7 100 = 7 ∧
    pct 29 100 = 28 ∧ pct 57 100 = 56 ∧ pct 58 100 = 57 ∧
    pct 290 1000 = 28 := by
  decide

/-! ## Claim theorems -/

/-- C1: `_prepare_task_list` resolves each image's tag mapping by layering
camera, film-stock and lens preset fields and the three per-image
overrides (`Aperture` → `FNumber`, `ShutterSpeed` → `ShutterSpeedValue`,
`RollNotes` → `ImageDescription`, the layer order being fixed by
`buildFinalExif`), producing one task per loaded image in collection
order; a preset name matching no known preset contributes nothing; every
pair with an empty resolved value is dropped; and on the camera preset
`Canon A1 ↦ {Make: Canon, Model: A1}` with an image having
`Camera = "Canon A1"`, `Aperture = "8"` and nothing else, the resolved
mapping is exactly `{Make: Canon, Model: A1, FNumber: 8}`. -/
theorem prepare_task_list_layering :
    (∀ (imgs : List (String × Dict)) (ps : AllPresets),
      (prepare_task_list imgs ps).map Prod.fst = imgs.map Prod.fst) ∧
    (∀ (category : PDict) (name : String) (e : Dict),
      plookup category name = none → presetLayer category name e = e) ∧
    (∀ (ps : AllPresets) (data : Dict) (kv : String × String),
      kv ∈ buildFinalExif ps data → kv.2 ≠ "") ∧
    buildFinalExif
      ⟨[("Canon A1", [("Make", "Canon"), ("Model", "A1")])], [], []⟩
      [("Camera", "Canon A1"), ("Aperture", "8")]
      = [("Make", "Canon"), ("Model", "A1"), ("FNumber", "8")] := by
  refine ⟨?_, ?_, ?_, by decide⟩
  · intro imgs ps
    simp [prepare_task_list, List.map_map]
  · intro category name e hnone
    by_cases ht : truthy name <;> simp [presetLayer, ht, hnone]
  · intro ps data kv hmem
    simp only [buildFinalExif] at hmem
    have := (List.mem_filter.mp hmem).2
    simpa [truthy] using this

/-- Witness for C1 at a concrete input: an unknown preset name contributes
nothing. -/
theorem prepare_task_list_layering_witness :
    presetLayer [] "Nikon F3" [("Make", "Canon")] = [("Make", "Canon")] :=
  prepare_task_list_layering.2.1 [] "Nikon F3" [("Make", "Canon")] rfl

/-- C9: on the heap model, `_prepare_task_list` does not mutate the image
collection — every record cell reads back unchanged after the call — and
every task's tag dict is a freshly allocated object, never one of the
records. -/
theorem prepare_task_list_frame (ps : AllPresets)
    (entries : List (String × Nat)) (h : Heap)
    (hvalid : ∀ e ∈ entries, e.2 < h.cells.length) :
    (∀ e ∈ entries,
      hread (prepareTaskListHeap ps entries h).1 e.2 = hread h e.2) ∧
    (∀ t ∈ (prepareTaskListHeap ps entries h).2, ∀ e ∈ entries, t.2 ≠ e.2) := by
  obtain ⟨hlen, hprev, hfresh, hval⟩ := prepareTaskListHeap_spec ps entries h hvalid
  constructor
  · intro e he
    exact hprev e.2 (hvalid e he)
  · intro t ht e he
    have h1 := hfresh t ht
    have h2 := hvalid e he
    omega

/-- Witness for C9: a one-record heap, the record read back unchanged. -/
theorem prepare_task_list_frame_witness :
    hread (prepareTaskListHeap ⟨[], [], []⟩ [("a.jpg", 0)]
        ⟨[[("Camera", "X")]]⟩).1 0
      = [("Camera", "X")] := by
  have hfr := prepare_task_list_frame ⟨[], [], []⟩ [("a.jpg", 0)]
    ⟨[[("Camera", "X")]]⟩ (by intro e he; simp at he; simp [he])
  have hone := hfr.1 ("a.jpg", 0) (by simp)
  rw [hone]
  rfl

/-- C5: task building is idempotent and deterministic — running
`_prepare_task_list` a second time on the same collection and presets
(over the heap left by the first run, the records being untouched) yields
the same list of `(path, tag mapping)` pairs. -/
theorem prepare_task_list_idempotent (ps : AllPresets)
    (entries : List (String × Nat)) (h : Heap)
    (hvalid : ∀ e ∈ entries, e.2 < h.cells.length) :
    taskValues (prepareTaskListHeap ps entries h).1
        (prepareTaskListHeap ps entries h).2
      = taskValues
          (prepareTaskListHeap ps entries (prepareTaskListHeap ps entries h).1).1
          (prepareTaskListHeap ps entries (prepareTaskListHeap ps entries h).1).2 := by
  obtain ⟨hlen, hprev, hfresh, hval⟩ := prepareTaskListHeap_spec ps entries h hvalid
  have hvalid1 : ∀ e ∈ entries, e.2 < (prepareTaskListHeap ps entries h).1.cells.length :=
    fun e he => lt_of_lt_of_le (hvalid e he) hlen
  obtain ⟨_, _, _, hval2⟩ :=
    prepareTaskListHeap_spec ps entries (prepareTaskListHeap ps entries h).1 hvalid1
  rw [hval, hval2]
  have hsame : entries.map
      (fun e => (e.1, hread (prepareTaskListHeap ps entries h).1 e.2))
      = entries.map (fun e => (e.1, hread h e.2)) := by
    apply List.map_congr_left
    intro e he
    rw [hprev e.2 (hvalid e he)]
  rw [hsame]

/-- Witness for C5 at a concrete heap: the two runs agree. -/
theorem prepare_task_list_idempotent_witness :
    taskValues
        (prepareTaskListHeap ⟨[("c", [("Make", "M")])], [], []⟩ [("a.jpg", 0)]
          ⟨[[("Camera", "c")]]⟩).1
        (prepareTaskListHeap ⟨[("c", [("Make", "M")])], [], []⟩ [("a.jpg", 0)]
          ⟨[[("Camera", "c")]]⟩).2
      = taskValues
          (prepareTaskListHeap ⟨[("c", [("Make", "M")])], [], []⟩ [("a.jpg", 0)]
            (prepareTaskListHeap ⟨[("c", [("Make", "M")])], [], []⟩ [("a.jpg", 0)]
              ⟨[[("Camera", "c")]]⟩).1).1
          (prepareTaskListHeap ⟨[("c", [("Make", "M")])], [], []⟩ [("a.jpg", 0)]
            (prepareTaskListHeap ⟨[("c", [("Make", "M")])], [], []⟩ [("a.jpg", 0)]
              ⟨[[("Camera", "c")]]⟩).1).2 :=
  prepare_task_list_idempotent ⟨[("c", [("Make", "M")])], [], []⟩ [("a.jpg", 0)]
    ⟨[[("Camera", "c")]]⟩ (by intro e he; simp at he; simp [he])

/-- C2: with backups enabled, if the write capability succeeds on the
first `pre.length` tasks and fails on the next one (no cancellation), the
run produces the success blocks for the first tasks, then for the failing
file its progress emission, its backup copy, the failed write attempt and
a failure outcome whose message names the file and references the backup
location; counting events, exactly `pre.length` files were written,
exactly `pre.length + 1` copied (each inside its own `okBlock`, before its
write), `pre.length + 1` writes attempted, and nothing further. -/
theorem exif_run_fail_fast (pre post : List (String × Dict))
    (path : String) (md : Dict) (bp : String) (writeOk cancelAt : Nat → Bool)
    (hw : ∀ j, j < pre.length → writeOk j = true)
    (hwf : writeOk pre.length = false)
    (hc : ∀ j, cancelAt j = false) :
    exifRun (pre ++ (path, md) :: post) true bp writeOk cancelAt
      = okBlocks true (pre ++ (path, md) :: post).length pre 0
        ++ [Ev.progress
              (pct (pre.length + 1) (pre ++ (path, md) :: post).length)
              (processingMsg path),
            Ev.copy path, Ev.write path false,
            Ev.finished false
              (errMsg true bp
                ("Failed to write metadata for " ++ basename path ++ "."))] ∧
    countWritten (exifRun (pre ++ (path, md) :: post) true bp writeOk cancelAt)
      = pre.length ∧
    countCopied (exifRun (pre ++ (path, md) :: post) true bp writeOk cancelAt)
      = pre.length + 1 ∧
    countAttempts (exifRun (pre ++ (path, md) :: post) true bp writeOk cancelAt)
      = pre.length + 1 := by
  have htr : exifRun (pre ++ (path, md) :: post) true bp writeOk cancelAt
      = okBlocks true (pre ++ (path, md) :: post).length pre 0
        ++ [Ev.progress
              (pct (pre.length + 1) (pre ++ (path, md) :: post).length)
              (processingMsg path),
            Ev.copy path, Ev.write path false,
            Ev.finished false
              (errMsg true bp
                ("Failed to write metadata for " ++ basename path ++ "."))] := by
    unfold exifRun
    rw [if_pos rfl]
    rw [runFrom_append_ok true bp writeOk cancelAt _ pre ((path, md) :: post) 0
      (fun j _ h2 => hw j (by omega)) (fun j _ _ => hc j)]
    simp only [Nat.zero_add, runFrom, hc (pre.length), hwf, Bool.false_eq_true,
      if_false, if_true]
    rfl
  refine ⟨htr, ?_, ?_, ?_⟩
  · rw [htr, countWritten_append, countWritten_okBlocks]
    simp [countWritten, List.countP_cons]
  · rw [htr, countCopied_append, countCopied_okBlocks]
    simp [countCopied, List.countP_cons]
  · rw [htr, countAttempts_append, countAttempts_okBlocks]
    simp [countAttempts, List.countP_cons]

/-- Witness for C2: the spec's 3-file example, second write failing — one
file written, two files copied. -/
theorem exif_run_fail_fast_witness :
    countWritten
        (exifRun [("r/1.jpg", []), ("r/2.jpg", []), ("r/3.jpg", [])] true "bk"
          (fun j => j == 0) (fun _ => false))
      = 1 ∧
    countCopied
        (exifRun [("r/1.jpg", []), ("r/2.jpg", []), ("r/3.jpg", [])] true "bk"
          (fun j => j == 0) (fun _ => false))
      = 2 := by
  have hmain := exif_run_fail_fast [("r/1.jpg", [])] [("r/3.jpg", [])]
    "r/2.jpg" [] "bk" (fun j => j == 0) (fun _ => false)
    (by decide) (by decide) (fun _ => rfl)
  exact ⟨hmain.2.1, hmain.2.2.1⟩

/-- C3 counterexample: in a concrete 1-file run the (single) progress
emission is the very first event of the trace, so it is not preceded by
any write — the claim that each progress emission occurs after its file
has been processed is false on the code. -/
theorem progress_emitted_before_write_cex :
    ¬ (∀ k p m,
        (exifRun [("a.jpg", [])] false "" (fun _ => true) (fun _ => false)).get? k
          = some (Ev.progress p m) →
        ∃ j q b, j < k ∧
          (exifRun [("a.jpg", [])] false "" (fun _ => true) (fun _ => false)).get? j
            = some (Ev.write q b)) := by
  intro hcl
  obtain ⟨j, q, b, hj, _⟩ := hcl 0 (pct 1 1) (processingMsg "a.jpg") (by rfl)
  exact absurd hj (Nat.not_lt_zero j)

/-- C3 amended: during an apply run, progress is reported once per file as
the integer percentage `(idx+1)/total*100` with a status naming the
current file, but the emission occurs *before* the file is processed
(before its backup copy and write attempt), not after: an all-success run
is exactly one `okBlock` per task — progress first, then copy, then
write — followed by the success outcome, and carries one progress event
per task. -/
theorem exif_run_progress_per_file (tasks : List (String × Dict))
    (backup : Bool) (bp : String) (writeOk cancelAt : Nat → Bool)
    (hw : ∀ j, writeOk j = true) (hc : ∀ j, cancelAt j = false) :
    exifRun tasks backup bp writeOk cancelAt
      = okBlocks backup tasks.length tasks 0
        ++ [Ev.finished true (if backup then bp else "")] ∧
    countProgress (exifRun tasks backup bp writeOk cancelAt) = tasks.length := by
  have htr : exifRun tasks backup bp writeOk cancelAt
      = okBlocks backup tasks.length tasks 0
        ++ [Ev.finished true (if backup then bp else "")] := by
    unfold exifRun
    have := runFrom_append_ok backup (if backup then bp else "") writeOk cancelAt
      tasks.length tasks [] 0 (fun j _ _ => hw j) (fun j _ _ => hc j)
    simpa [runFrom] using this
  refine ⟨htr, ?_⟩
  rw [htr, countProgress_append, countProgress_okBlocks]
  simp [countProgress, List.countP_cons]

/-- Witness for C3's amended claim at a concrete 1-file run. -/
theorem exif_run_progress_per_file_witness :
    exifRun [("a.jpg", [])] false "" (fun _ => true) (fun _ => false)
      = okBlocks false 1 [("a.jpg", [])] 0 ++ [Ev.finished true ""] ∧
    countProgress (exifRun [("a.jpg", [])] false "" (fun _ => true) (fun _ => false))
      = 1 := by
  have hmain := exif_run_progress_per_file [("a.jpg", [])] false ""
    (fun _ => true) (fun _ => false) (fun _ => rfl) (fun _ => rfl)
  simpa using hmain

/-- C4: the cancellation flag is checked before each file; if it is first
observed set before the file following `pre`, the run consists of the
success blocks for `pre` only, then a failure outcome whose message is the
user-cancellation error — the remaining files get no copy and no write
event, and the events of the earlier files stand.  With `pre = []` this
gives zero writes and zero copies. -/
theorem exif_run_cancellation (pre rest : List (String × Dict))
    (path : String) (md : Dict) (backup : Bool) (bp : String)
    (writeOk cancelAt : Nat → Bool)
    (hw : ∀ j, j < pre.length → writeOk j = true)
    (hc : ∀ j, j < pre.length → cancelAt j = false)
    (hcan : cancelAt pre.length = true) :
    exifRun (pre ++ (path, md) :: rest) backup bp writeOk cancelAt
      = okBlocks backup (pre ++ (path, md) :: rest).length pre 0
        ++ [Ev.finished false
              (errMsg backup (if backup then bp else "")
                "Process cancelled by user.")] ∧
    countWritten (exifRun (pre ++ (path, md) :: rest) backup bp writeOk cancelAt)
      = pre.length ∧
    countCopied (exifRun (pre ++ (path, md) :: rest) backup bp writeOk cancelAt)
      = (if backup then pre.length else 0) ∧
    countAttempts (exifRun (pre ++ (path, md) :: rest) backup bp writeOk cancelAt)
      = pre.length := by
  have htr : exifRun (pre ++ (path, md) :: rest) backup bp writeOk cancelAt
      = okBlocks backup (pre ++ (path, md) :: rest).length pre 0
        ++ [Ev.finished false
              (errMsg backup (if backup then bp else "")
                "Process cancelled by user.")] := by
    unfold exifRun
    rw [runFrom_append_ok backup (if backup then bp else "") writeOk cancelAt _
      pre ((path, md) :: rest) 0
      (fun j _ h2 => hw j (by omega)) (fun j _ h2 => hc j (by omega))]
    simp only [Nat.zero_add, runFrom, hcan, if_true]
  refine ⟨htr, ?_, ?_, ?_⟩
  · rw [htr, countWritten_append, countWritten_okBlocks]
    simp [countWritten, List.countP_cons]
  · rw [htr, countCopied_append, countCopied_okBlocks]
    simp [countCopied, List.countP_cons]
  · rw [htr, countAttempts_append, countAttempts_okBlocks]
    simp [countAttempts, List.countP_cons]

/-- Witness for C4: cancelling before any file is processed yields a
failure outcome with zero files written and zero files copied, backups
enabled (the doubled period is the code's: the Python format string adds a
`.` after the exception text, which already ends in one). -/
theorem exif_run_cancellation_witness :
    exifRun [("a.jpg", [])] true "bk" (fun _ => true) (fun _ => true)
      = [Ev.finished false
          "Error: Process cancelled by user.. Originals are safe in backup folder: bk"] ∧
    countWritten (exifRun [("a.jpg", [])] true "bk" (fun _ => true) (fun _ => true)) = 0 ∧
    countCopied (exifRun [("a.jpg", [])] true "bk" (fun _ => true) (fun _ => true)) = 0 := by
  have hmain := exif_run_cancellation [] [] "a.jpg" [] true "bk"
    (fun _ => true) (fun _ => true)
    (by intro j hj; simp at hj) (by intro j hj; simp at hj) rfl
  refine ⟨?_, ?_, ?_⟩
  · have h1 := hmain.1
    simpa [okBlocks, errMsg] using h1
  · simpa using hmain.2.1
  · simpa using hmain.2.2.1

/-- C6 counterexample: editing preset `A` and giving it the name of the
existing preset `B` is not reported as an input error — the edit proceeds,
deletes `A`, silently overwrites `B`, and saves: the stored mapping
changes with no warning. -/
theorem edit_preset_duplicate_cex :
    (editPreset [("A", [("Make", "x")]), ("B", [("Make", "y")])] "A"
        (some ("B", [("Make", "z")]))).warning = none ∧
    (editPreset [("A", [("Make", "x")]), ("B", [("Make", "y")])] "A"
        (some ("B", [("Make", "z")]))).presets
      ≠ [("A", [("Make", "x")]), ("B", [("Make", "y")])] ∧
    (editPreset [("A", [("Make", "x")]), ("B", [("Make", "y")])] "A"
        (some ("B", [("Make", "z")]))).saved = true := by
  refine ⟨rfl, ?_, rfl⟩
  decide

/-- C6 amended: `_add_preset` rejects an empty name and a duplicate name
synchronously with a warning, aborting with the mapping unchanged and
nothing saved, and `_edit_preset` rejects an empty name the same way — but
`_edit_preset` performs no duplicate check: any non-empty new name makes
it delete the original entry, assign the new name (overwriting an
existing preset of that name, if any) and save. -/
theorem preset_mutation_input_errors :
    (∀ (presets : PDict) (d : Dict),
      addPreset presets (some ("", d))
        = ⟨presets, some "Preset name cannot be empty.", false⟩) ∧
    (∀ (presets : PDict) (name : String) (d : Dict),
      name ≠ "" → pHasKey presets name = true →
      addPreset presets (some (name, d))
        = ⟨presets, some "A preset with this name already exists.", false⟩) ∧
    (∀ (presets : PDict) (originalName : String) (d : Dict),
      editPreset presets originalName (some ("", d))
        = ⟨presets, some "Preset name cannot be empty.", false⟩) ∧
    (∀ (presets : PDict) (originalName newName : String) (d : Dict),
      newName ≠ "" →
      editPreset presets originalName (some (newName, d))
        = ⟨pInsert (pDelete presets originalName) newName d, none, true⟩) := by
  refine ⟨?_, ?_, ?_, ?_⟩
  · intro presets d
    simp [addPreset]
  · intro presets name d hne hdup
    simp [addPreset, hne, hdup]
  · intro presets originalName d
    simp [editPreset]
  · intro presets originalName newName d hne
    simp [editPreset, hne]

/-- Witness for C6's amended claim: a duplicate add is rejected with the
mapping unchanged. -/
theorem preset_mutation_input_errors_witness :
    addPreset [("A", [("Make", "x")])] (some ("A", [("Make", "z")]))
      = ⟨[("A", [("Make", "x")])], some "A preset with this name already exists.",
          false⟩ :=
  preset_mutation_input_errors.2.1 [("A", [("Make", "x")])] "A"
    [("Make", "z")] (by decide) (by decide)

/-- C7 counterexample: a thumbnail unit whose stop flag was set before it
started work emits nothing at all — not exactly once. -/
theorem thumbnail_stopped_silent_cex :
    ¬ (thumbRun false (DecodeOutcome.ok 7) "a.jpg").length = 1 := by
  decide

/-- C7 amended: a thumbnail unit that actually starts work (stop flag
unset at the check at the top of `run`) reports back exactly once for its
own path — the scaled icon on success, the empty icon on a null decode or
an exception — while a unit whose stop flag was set before it started
work emits nothing. -/
theorem thumbnail_emission_discipline (path : String) (d : DecodeOutcome) :
    (∀ icon, thumbRun true (DecodeOutcome.ok icon) path = [(path, some icon)]) ∧
    thumbRun true DecodeOutcome.nullImage path = [(path, none)] ∧
    thumbRun true DecodeOutcome.exn path = [(path, none)] ∧
    thumbRun false d path = [] := by
  refine ⟨fun icon => rfl, rfl, rfl, rfl⟩

/-- C8: for a valid category whose storage file does not exist,
`load_presets` returns the empty mapping, not an error. -/
theorem load_presets_missing_file (fs : String → Option LoadedJson)
    (t : String) (ht : t ∈ PRESET_TYPES)
    (hmiss : fs (PRESETS_DIR ++ "/" ++ t ++ ".json") = none) :
    load_presets fs t = Except.ok [] := by
  simp [load_presets, get_preset_filepath, ht, hmiss, bind, Except.bind, pure, Except.pure]

/-- Witness for C8: `cameras` with an empty filesystem. -/
theorem load_presets_missing_file_witness :
    load_presets (fun _ => none) "cameras" = Except.ok [] :=
  load_presets_missing_file (fun _ => none) "cameras" (by decide) rfl

/-- C10: for a category name outside
`{cameras, lenses, film_stocks}`, both `load_presets` and `save_presets`
propagate the `ValueError` raised by `get_preset_filepath` instead of
returning an empty mapping or a failure boolean. -/
theorem invalid_category_raises (fs : String → Option LoadedJson)
    (writeOk : Bool) (t : String) (ht : t ∉ PRESET_TYPES) :
    load_presets fs t = Except.error ("Invalid preset type: " ++ t) ∧
    save_presets writeOk t = Except.error ("Invalid preset type: " ++ t) := by
  constructor
  · simp [load_presets, get_preset_filepath, ht, bind, Except.bind, pure, Except.pure]
  · simp [save_presets, get_preset_filepath, ht, bind, Except.bind, pure, Except.pure]

/-- Witness for C10 at the concrete invalid category `films`. -/
theorem invalid_category_raises_witness :
    load_presets (fun _ => none) "films"
        = Except.error "Invalid preset type: films" ∧
    save_presets true "films" = Except.error "Invalid preset type: films" :=
  invalid_category_raises (fun _ => none) true "films" (by decide)

end FilmTagger
